import Mathlib

/-!
Verification of the Y-DNA Propagator engine (propagator.py / database.py).

The engine traverses paternal lines through a remote genealogy directory,
caches father to son edges in a relational store, and propagates haplogroup
labels while recording conflicts.  This file gives a shallow embedding of the
data model and the operations and proves the behavioral properties stated in
the specification.

Modelling conventions:
  - A profile payload is a record of the dictionary keys the engine reads.
    Remote payloads carry the key id; rows read back from the store carry the
    key geni_id.  Absent keys are modelled as none.  Payload columns the
    engine never reads back (dates, places, raw blobs, timestamps) are elided.
  - Python string-or (x or y, with None and the empty string falsy) is strOr.
  - The store is modelled as lists in insertion order: created_at timestamps
    are strictly increasing with insertion, and SQLite result order for the
    indexed lookups used here follows insertion order of the link rows.
  - Remote calls are recorded in a fetch log; every remote call is preceded
    by a rate-limit wait, so an unchanged fetch log means no remote call and
    no rate-limit delay.
  - A failed remote request (transport error or exhausted retries) is an
    error value of the client function; the engine catches it.
-/

/-- Profile payload: the dictionary keys the engine reads. -/
structure GProfile where
  id : Option String
  geni_id : Option String
  gender : Option String
  display_name : Option String
  name : Option String
  first_name : Option String
  last_name : Option String
deriving Repr, DecidableEq

/-- Python or on two optional strings: None and the empty string are falsy. -/
def strOr : Option String → Option String → Option String
  | some s, b => if s = "" then b else some s
  | none, b => b

/-- Haplogroup assignment row (table haplogroups), insert-only. -/
structure HRow where
  profile_id : String
  haplogroup : String
  source : String
  is_tested : Bool
  is_propagated : Bool
  propagated_from : Option String
  confidence : String
deriving Repr, DecidableEq

/-- The relational store.  Lists are kept in insertion order.  The unions
table is written but never read back by the engine, so only the saved keys
are kept.  The explored set backs the exploration checkpoint operations. -/
structure DB where
  profiles : List GProfile
  paternal_links : List (String × String)
  haplogroups : List HRow
  unions : List String
  explored : List (String × String)
deriving Repr, DecidableEq

/-- Row stored for a payload saved under the given key (column geni_id). -/
def rowOfProfile (p : GProfile) (key : String) : GProfile :=
  { id := none
    geni_id := some key
    gender := p.gender
    display_name := strOr p.display_name p.name
    name := none
    first_name := p.first_name
    last_name := p.last_name }

/-- Database.save_profile: upsert keyed by the payload id; a falsy id means
no row is written. -/
def saveProfile (db : DB) (p : GProfile) : DB :=
  match p.id with
  | none => db
  | some key =>
    if key = "" then db
    else if db.profiles.any (fun r => r.geni_id == some key) then
      { db with profiles :=
          db.profiles.map (fun r => if r.geni_id = some key then rowOfProfile p key else r) }
    else
      { db with profiles := db.profiles ++ [rowOfProfile p key] }

/-- Database.save_union: upsert keyed by the payload id; only the key is
retained since the engine never reads unions back. -/
def saveUnion (db : DB) (u : GProfile) : DB :=
  match u.id with
  | none => db
  | some key =>
    if key = "" then db
    else if db.unions.contains key then db
    else { db with unions := db.unions ++ [key] }

/-- Database.get_profile. -/
def dbGetProfile (db : DB) (geniId : String) : Option GProfile :=
  db.profiles.find? (fun r => r.geni_id == some geniId)

/-- Database.get_father: join of paternal_links (by child) with profiles,
first row. -/
def dbGetFather (db : DB) (childId : String) : Option GProfile :=
  ((db.paternal_links.filter (fun l => l.2 == childId)).filterMap
    (fun l => db.profiles.find? (fun r => r.geni_id == some l.1))).head?

/-- Database.get_sons: join of paternal_links (by father) with profiles. -/
def dbGetSons (db : DB) (fatherId : String) : List GProfile :=
  (db.paternal_links.filter (fun l => l.1 == fatherId)).filterMap
    (fun l => db.profiles.find? (fun r => r.geni_id == some l.2))

/-- Database.add_paternal_link: INSERT OR IGNORE under UNIQUE(father, child);
the source and confidence columns are never read back and are elided. -/
def addPaternalLink (db : DB) (fatherId childId : String) : DB :=
  if (fatherId, childId) ∈ db.paternal_links then db
  else { db with paternal_links := db.paternal_links ++ [(fatherId, childId)] }

/-- Database.add_haplogroup: always inserts a new row. -/
def addHaplogroup (db : DB) (pid label source : String) (isTested : Bool)
    (propagatedFrom : Option String) (confidence : String) : DB :=
  { db with haplogroups := db.haplogroups ++
      [{ profile_id := pid
         haplogroup := label
         source := source
         is_tested := isTested
         is_propagated := propagatedFrom.isSome
         propagated_from := propagatedFrom
         confidence := confidence }] }

/-- Database.get_haplogroup: ORDER BY is_tested DESC, created_at DESC LIMIT 1,
with created_at strictly increasing in insertion order. -/
def dbGetHaplogroup (db : DB) (pid : String) : Option HRow :=
  let rows := db.haplogroups.filter (fun r => r.profile_id == pid)
  match (rows.filter (fun r => r.is_tested)).getLast? with
  | some r => some r
  | none => rows.getLast?

/-- Modelled from the spec: Database.is_explored is called by the propagator
but absent from database.py; the spec gives isExplored(profileId, label) as
membership in the exploration checkpoint set. -/
def isExplored (db : DB) (pid label : String) : Prop :=
  (pid, label) ∈ db.explored

instance (db : DB) (pid label : String) : Decidable (isExplored db pid label) :=
  inferInstanceAs (Decidable ((pid, label) ∈ db.explored))

/-- Modelled from the spec: Database.mark_explored is called by the propagator
but absent from database.py; the spec gives markExplored(profileId, label) as
an idempotent write-once insertion into the checkpoint set. -/
def markExplored (db : DB) (pid label : String) : DB :=
  if (pid, label) ∈ db.explored then db
  else { db with explored := db.explored ++ [(pid, label)] }

/-- Modelled from the spec: Database.get_explored_count is called by the
propagator but absent from database.py; the spec gives countExplored(label)
as the number of checkpointed profiles for the label. -/
def getExploredCount (db : DB) (label : String) : Nat :=
  (db.explored.filter (fun e => e.2 == label)).length

/-- A node of the immediate-family response: its payload and its edges, an
association of neighbor identifier to the rel tag (child or partner). -/
structure RawNode where
  payload : GProfile
  edges : List (String × String)
deriving Repr, DecidableEq

/-- Raw immediate-family response: the focus payload (absent on a degenerate
response) and the node map in response order. -/
structure FamilyData where
  focus : Option GProfile
  nodes : List (String × RawNode)
deriving Repr, DecidableEq

/-- Parsed family relationships built by fetch_immediate_family.  The
siblings entry of the source starts empty and is never filled, so it is
elided. -/
structure FamilyRel where
  focus : Option GProfile
  parents : List GProfile
  children : List GProfile
  partners : List GProfile
deriving Repr, DecidableEq

/-- The empty relationship dict returned when the remote fetch fails. -/
def emptyFamilyRel : FamilyRel :=
  { focus := none, parents := [], children := [], partners := [] }

/-- External collaborators and configuration: the directory client endpoints
(already past authentication and retry, an error value meaning a transport
error or exhausted retries) and the generation ceilings. -/
structure Env where
  getImmediateFamily : String → Except String FamilyData
  getProfile : String → Except String GProfile
  maxGenUp : Nat
  maxGenDown : Nat

/-- Engine state: the store plus the log of remote calls issued.  Every
remote call is preceded by a rate-limit wait, so the log also counts waits. -/
structure St where
  db : DB
  fetchLog : List String
deriving Repr, DecidableEq

/-- YDNAPropagator.fetch_immediate_family: rate-limited remote fetch; on
failure the error is caught and the empty dict returned; on success every
profile and union node is saved and the parent, child and partner lists are
extracted from the union edges around the focus node. -/
def fetchImmediateFamily (env : Env) (st : St) (pid : String) : FamilyRel × St :=
  let st := { st with fetchLog := st.fetchLog ++ [pid] }
  match env.getImmediateFamily pid with
  | .error _ => (emptyFamilyRel, st)
  | .ok fd =>
    let db := match fd.focus with
      | some f => saveProfile st.db f
      | none => st.db
    let db := fd.nodes.foldl (fun db kv =>
        if kv.1.startsWith "profile-" then saveProfile db kv.2.payload
        else if kv.1.startsWith "union-" then saveUnion db kv.2.payload
        else db) db
    let profilesM := fd.nodes.filter (fun kv => kv.1.startsWith "profile-")
    let unionsM := fd.nodes.filter (fun kv => kv.1.startsWith "union-")
    let focusId0 := match fd.focus with
      | some f => f.id.getD ""
      | none => pid
    let focusId := if focusId0.startsWith "profile-" then focusId0 else "profile-" ++ focusId0
    let focusEdges := match profilesM.find? (fun kv => kv.1 == focusId) with
      | some kv => kv.2.edges
      | none => []
    let res := focusEdges.foldl (fun (res : FamilyRel) ue =>
      if ue.1.startsWith "union-" then
        let unionEdges := match unionsM.find? (fun kv => kv.1 == ue.1) with
          | some kv => kv.2.edges
          | none => []
        if ue.2 = "child" then
          unionEdges.foldl (fun res pe =>
            if pe.1.startsWith "profile-" ∧ pe.2 = "partner" then
              match profilesM.find? (fun kv => kv.1 == pe.1) with
              | some kv => { res with parents := res.parents ++ [kv.2.payload] }
              | none => res
            else res) res
        else if ue.2 = "partner" then
          unionEdges.foldl (fun res pe =>
            if ¬ pe.1.startsWith "profile-" then res
            else if pe.1 = focusId then res
            else if pe.2 = "child" then
              match profilesM.find? (fun kv => kv.1 == pe.1) with
              | some kv => { res with children := res.children ++ [kv.2.payload] }
              | none => res
            else if pe.2 = "partner" then
              match profilesM.find? (fun kv => kv.1 == pe.1) with
              | some kv => { res with partners := res.partners ++ [kv.2.payload] }
              | none => res
            else res) res
        else res
      else res)
      { focus := fd.focus, parents := [], children := [], partners := [] }
    (res, { st with db := db })

/-- YDNAPropagator.fetch_and_save_profile. -/
def fetchAndSaveProfile (env : Env) (st : St) (pid : String) : Option GProfile × St :=
  match dbGetProfile st.db pid with
  | some existing => (some existing, st)
  | none =>
    let st := { st with fetchLog := st.fetchLog ++ [pid] }
    match env.getProfile pid with
    | .error _ => (none, st)
    | .ok pd => (some pd, { st with db := saveProfile st.db pd })

/-- YDNAPropagator.get_father: store first, then remote; on a remote hit the
link is stored under the response focus identifier and the parent node
identifier. -/
def getFather (env : Env) (st : St) (pid : String) : Option GProfile × St :=
  match dbGetFather st.db pid with
  | some f => (some f, st)
  | none =>
    let (fam, st) := fetchImmediateFamily env st pid
    let actualChildId := match fam.focus with
      | some f => f.id.getD ""
      | none => pid
    let st := match fam.focus with
      | some f => { st with db := saveProfile st.db f }
      | none => st
    match fam.parents.find? (fun p => p.gender == some "male") with
    | some parent =>
      let db := saveProfile st.db parent
      let db := addPaternalLink db (parent.id.getD "") actualChildId
      (some parent, { st with db := db })
    | none => (none, st)

/-- YDNAPropagator.get_sons: store first unless forced or the cached son set
is empty; on a fetch, every male child is saved and linked under the response
focus identifier and the child node identifier. -/
def getSons (env : Env) (st : St) (pid : String) (forceFetch : Bool) :
    List GProfile × St :=
  let cached := dbGetSons st.db pid
  if forceFetch = false ∧ cached ≠ [] then (cached, st)
  else
    let (fam, st) := fetchImmediateFamily env st pid
    let actualParentId := match fam.focus with
      | some f => f.id.getD ""
      | none => pid
    let st := match fam.focus with
      | some f => { st with db := saveProfile st.db f }
      | none => st
    let sonsDb := fam.children.foldl (fun (acc : List GProfile × DB) child =>
        if child.gender == some "male" then
          let db := saveProfile acc.2 child
          let db := addPaternalLink db actualParentId (child.id.getD "")
          (acc.1 ++ [child], db)
        else acc) ([], st.db)
    (sonsDb.1, { st with db := sonsDb.2 })

/-- Identifier of a profile as read in the ascending traversal and the fetch
branch of the descent: key id, falling back to key geni_id. -/
def profileKeyId (p : GProfile) : String :=
  (strOr p.id p.geni_id).getD ""

/-- Identifier of a son row as read in the resume branch of the full-tree
descent: key geni_id, falling back to key id. -/
def rowKeyId (p : GProfile) : String :=
  (strOr p.geni_id p.id).getD ""

/-- YDNAPropagator.traverse_paternal_line_up, with the remaining generation
budget as the recursion measure; no callback is passed by the behaviors
verified here. -/
def traverseUpF (env : Env) : Nat → St → String → List GProfile × St
  | 0, st, _ => ([], st)
  | Nat.succ n, st, cur =>
    match getFather env st cur with
    | (none, st2) => ([], st2)
    | (some f, st2) =>
      let rest := traverseUpF env n st2 (profileKeyId f)
      (f :: rest.1, rest.2)

/-- Ascending traversal entry point: at most maxGen iterations. -/
def traverseUp (env : Env) (st : St) (startId : String) (maxGen : Nat) :
    List GProfile × St :=
  traverseUpF env maxGen st startId

/-- One emitted descendant: profile, 1-based generation, identifier path from
the traversal root. -/
structure DRec where
  profile : GProfile
  generation : Nat
  path : List String
deriving Repr, DecidableEq

/-- YDNAPropagator.traverse_paternal_line_down, depth-first pre-order; the
fuel argument dominates the generation bound so the guard always fires
before the fuel runs out. -/
def traverseDownF (env : Env) (maxGen : Nat) :
    Nat → St → String → Nat → List String → List DRec × St
  | 0, st, _, _, _ => ([], st)
  | Nat.succ fuel, st, cur, g, path =>
    if g > maxGen then ([], st)
    else
      let sonsSt := getSons env st cur false
      sonsSt.1.foldl (fun (acc : List DRec × St) son =>
        let sid := profileKeyId son
        let r : DRec := { profile := son, generation := g, path := path ++ [sid] }
        let sub := traverseDownF env maxGen fuel acc.2 sid (g + 1) (path ++ [sid])
        (acc.1 ++ [r] ++ sub.1, sub.2)) ([], sonsSt.2)

/-- Descending traversal entry point, starting at generation 1 with the start
identifier as the path root. -/
def traverseDown (env : Env) (st : St) (startId : String) (maxGen : Nat) :
    List DRec × St :=
  traverseDownF env maxGen (maxGen + 1) st startId 1 [startId]

/-- A recorded label conflict, as appended to the run statistics. -/
structure Conflict where
  profile_id : String
  existing : String
  new : String
deriving Repr, DecidableEq

/-- Statistics record of propagate_full_tree. -/
structure Stats where
  haplogroup : String
  root_profile_id : Option String
  total_propagated : Nat
  skipped_explored : Nat
  generations : Nat
  conflicts : List Conflict
  resumed : Bool
deriving Repr, DecidableEq

/-- YDNAPropagator._assign_haplogroup: the single mutation point for labels;
inserts only when no current assignment exists, records a conflict when a
differing one does. -/
def assignHaplogroup (st : St) (stats : Stats) (pid label source : String) :
    Bool × St × Stats :=
  match dbGetHaplogroup st.db pid with
  | some existing =>
    if existing.haplogroup ≠ label then
      (false, st,
        { stats with conflicts := stats.conflicts ++
            [{ profile_id := pid, existing := existing.haplogroup, new := label }] })
    else
      (false, st, stats)
  | none =>
    let db := addHaplogroup st.db pid label source
        ((source == "FTDNA") || (source == "YFull")) none
        (if (source.splitOn "propagated").length > 1 then "propagated" else "confirmed")
    (true, { st with db := db },
      { stats with total_propagated := stats.total_propagated + 1 })

/-- The inner recursion propagate_to_all_sons of propagate_full_tree, with
the remaining fuel as recursion measure.  The resume branch reads cached
sons only and touches the skip counter only when that cache is non-empty;
the fetch branch force-fetches, checkpoints the profile, then assigns and
recurses, updating the running maximum generation. -/
def propagateToAllSonsF (env : Env) (label source : String) (resume : Bool) :
    Nat → St → Stats → String → Nat → St × Stats
  | 0, st, stats, _, _ => (st, stats)
  | Nat.succ fuel, st, stats, pid, g =>
    if g > env.maxGenDown then (st, stats)
    else if resume = true ∧ isExplored st.db pid label then
      let sons := dbGetSons st.db pid
      if sons = [] then (st, stats)
      else
        let stats := { stats with skipped_explored := stats.skipped_explored + 1 }
        sons.foldl (fun (acc : St × Stats) son =>
          let sid := rowKeyId son
          let asg := assignHaplogroup acc.1 acc.2 sid label ("propagated_" ++ source)
          propagateToAllSonsF env label source resume fuel asg.2.1 asg.2.2 sid (g + 1))
          (st, stats)
    else
      let sonsSt := getSons env st pid true
      let st := { sonsSt.2 with db := markExplored sonsSt.2.db pid label }
      let folded := sonsSt.1.foldl (fun (acc : St × Stats) son =>
          let sid := profileKeyId son
          let asg := assignHaplogroup acc.1 acc.2 sid label ("propagated_" ++ source)
          propagateToAllSonsF env label source resume fuel asg.2.1 asg.2.2 sid (g + 1))
          (st, stats)
      if g > folded.2.generations then
        (folded.1, { folded.2 with generations := g })
      else folded

/-- YDNAPropagator.propagate_full_tree: ascend to the oldest ancestor,
assign the label to it, then recursively propagate to all sons. -/
def propagateFullTree (env : Env) (st : St) (startId label source : String)
    (resume : Bool) : Stats × St :=
  let stats : Stats :=
    { haplogroup := label
      root_profile_id := none
      total_propagated := 0
      skipped_explored := 0
      generations := 0
      conflicts := []
      resumed := resume }
  let anc := traverseUp env st startId env.maxGenUp
  let rootSt : Option String × St :=
    match anc.1.getLast? with
    | some rp => (strOr rp.id rp.geni_id, anc.2)
    | none =>
      let fp := fetchAndSaveProfile env anc.2 startId
      (match fp.1 with
       | some r => r.id
       | none => some startId, fp.2)
  let stats := { stats with root_profile_id := rootSt.1 }
  let rootId := rootSt.1.getD ""
  let asg := assignHaplogroup rootSt.2 stats rootId label source
  let fin := propagateToAllSonsF env label source resume (env.maxGenDown + 1)
      asg.2.1 asg.2.2 rootId 1
  (fin.2, fin.1)

/-! ### Frame lemmas for the store operations -/

/-- Generic preservation of a reflexive transitive relation along a fold. -/
lemma foldl_rel {α β : Type _} (R : β → β → Prop) (hre : ∀ b, R b b)
    (htr : ∀ a b c, R a b → R b c → R a c)
    (f : β → α → β) (hf : ∀ b a, R b (f b a)) :
    ∀ (l : List α) (b : β), R b (l.foldl f b) := by
  intro l
  induction l with
  | nil => exact hre
  | cons x xs ih => intro b; exact htr _ _ _ (hf b x) (ih (f b x))

/-- Fields of the store untouched by profile and union saves. -/
def DbFrame (d d' : DB) : Prop :=
  d'.paternal_links = d.paternal_links ∧ d'.haplogroups = d.haplogroups ∧
    d'.explored = d.explored

lemma dbFrame_refl (d : DB) : DbFrame d d := ⟨rfl, rfl, rfl⟩

lemma dbFrame_trans {a b c : DB} (h1 : DbFrame a b) (h2 : DbFrame b c) :
    DbFrame a c :=
  ⟨h2.1.trans h1.1, h2.2.1.trans h1.2.1, h2.2.2.trans h1.2.2⟩

lemma saveProfile_dbFrame (db : DB) (p : GProfile) : DbFrame db (saveProfile db p) := by
  unfold saveProfile
  split
  · exact dbFrame_refl db
  · split_ifs <;> exact ⟨rfl, rfl, rfl⟩

lemma saveUnion_dbFrame (db : DB) (u : GProfile) : DbFrame db (saveUnion db u) := by
  unfold saveUnion
  split
  · exact dbFrame_refl db
  · split_ifs <;> exact ⟨rfl, rfl, rfl⟩

lemma addPaternalLink_haplogroups (db : DB) (f c : String) :
    (addPaternalLink db f c).haplogroups = db.haplogroups := by
  unfold addPaternalLink; split_ifs <;> rfl

lemma addPaternalLink_explored (db : DB) (f c : String) :
    (addPaternalLink db f c).explored = db.explored := by
  unfold addPaternalLink; split_ifs <;> rfl

lemma mem_addPaternalLink {db : DB} {f c : String} {l : String × String}
    (h : l ∈ (addPaternalLink db f c).paternal_links) :
    l ∈ db.paternal_links ∨ l = (f, c) := by
  unfold addPaternalLink at h
  split_ifs at h
  · exact Or.inl h
  · rcases List.mem_append.mp h with h1 | h1
    · exact Or.inl h1
    · exact Or.inr (List.mem_singleton.mp h1)

lemma markExplored_haplogroups (db : DB) (pid label : String) :
    (markExplored db pid label).haplogroups = db.haplogroups := by
  unfold markExplored; split_ifs <;> rfl

lemma markExplored_links (db : DB) (pid label : String) :
    (markExplored db pid label).paternal_links = db.paternal_links := by
  unfold markExplored; split_ifs <;> rfl

lemma mem_markExplored_self (db : DB) (pid label : String) :
    (pid, label) ∈ (markExplored db pid label).explored := by
  unfold markExplored
  split_ifs with h
  · exact h
  · exact List.mem_append.mpr (Or.inr (List.mem_singleton.mpr rfl))

lemma mem_markExplored_mono {db : DB} {e : String × String} (pid label : String)
    (h : e ∈ db.explored) : e ∈ (markExplored db pid label).explored := by
  unfold markExplored
  split_ifs
  · exact h
  · exact List.mem_append.mpr (Or.inl h)

/-- The node-saving fold of fetch_immediate_family only writes profile and
union rows. -/
lemma nodesFold_dbFrame (nodes : List (String × RawNode)) (db : DB) :
    DbFrame db (nodes.foldl (fun db kv =>
      if kv.1.startsWith "profile-" then saveProfile db kv.2.payload
      else if kv.1.startsWith "union-" then saveUnion db kv.2.payload
      else db) db) := by
  refine foldl_rel DbFrame dbFrame_refl (fun a b c => dbFrame_trans) _ ?_ nodes db
  intro b kv
  split_ifs
  · exact saveProfile_dbFrame b kv.2.payload
  · exact saveUnion_dbFrame b kv.2.payload
  · exact dbFrame_refl b

/-- A remote family fetch appends exactly one entry to the fetch log and
writes only profile and union rows. -/
lemma fetchImmediateFamily_frame (env : Env) (st : St) (pid : String) :
    (fetchImmediateFamily env st pid).2.fetchLog = st.fetchLog ++ [pid] ∧
    DbFrame st.db (fetchImmediateFamily env st pid).2.db := by
  unfold fetchImmediateFamily
  cases h : env.getImmediateFamily pid with
  | error e => exact ⟨rfl, dbFrame_refl st.db⟩
  | ok fd =>
    dsimp only
    refine ⟨rfl, ?_⟩
    refine dbFrame_trans ?_ (nodesFold_dbFrame fd.nodes _)
    cases fd.focus with
    | none => exact dbFrame_refl st.db
    | some f => exact saveProfile_dbFrame st.db f


/-- Transitivity form used with foldl_rel for field-preservation relations. -/
lemma focus_rel_trans (a b c : FamilyRel) (hab : b.focus = a.focus)
    (hbc : c.focus = b.focus) : c.focus = a.focus := hbc.trans hab

/-- The relationship-extraction fold never changes the focus entry. -/
lemma fetchImmediateFamily_focus (env : Env) (st : St) (pid : String)
    (fd : FamilyData) (h : env.getImmediateFamily pid = .ok fd) :
    (fetchImmediateFamily env st pid).1.focus = fd.focus := by
  unfold fetchImmediateFamily
  rw [h]
  dsimp only
  refine foldl_rel (fun (a b : FamilyRel) => b.focus = a.focus) (fun _ => rfl)
    focus_rel_trans _ ?_ _ _
  intro b ue
  dsimp only
  split_ifs <;>
    first
    | rfl
    | (refine foldl_rel (fun (a b : FamilyRel) => b.focus = a.focus) (fun _ => rfl)
          focus_rel_trans _ ?_ _ b
       intro r pe
       split_ifs <;> first | rfl | (split <;> rfl))

/-- The male-children fold of get_sons writes only profile rows and links. -/
lemma sonsFold_frame (apid : String) (children : List GProfile)
    (acc : List GProfile × DB) :
    ((children.foldl (fun (acc : List GProfile × DB) child =>
        if child.gender == some "male" then
          let db := saveProfile acc.2 child
          let db := addPaternalLink db apid (child.id.getD "")
          (acc.1 ++ [child], db)
        else acc) acc).2.haplogroups = acc.2.haplogroups ∧
     (children.foldl (fun (acc : List GProfile × DB) child =>
        if child.gender == some "male" then
          let db := saveProfile acc.2 child
          let db := addPaternalLink db apid (child.id.getD "")
          (acc.1 ++ [child], db)
        else acc) acc).2.explored = acc.2.explored) := by
  refine foldl_rel
    (fun (a b : List GProfile × DB) =>
      b.2.haplogroups = a.2.haplogroups ∧ b.2.explored = a.2.explored)
    (fun _ => ⟨rfl, rfl⟩)
    (fun a b c hab hbc => ⟨hbc.1.trans hab.1, hbc.2.trans hab.2⟩) _ ?_ children acc
  intro b child
  split_ifs with hm
  · dsimp only
    constructor
    · rw [addPaternalLink_haplogroups]
      exact (saveProfile_dbFrame b.2 child).2.1
    · rw [addPaternalLink_explored]
      exact (saveProfile_dbFrame b.2 child).2.2
  · exact ⟨rfl, rfl⟩

/-- get_sons leaves haplogroup rows and exploration checkpoints unchanged. -/
lemma getSons_frame (env : Env) (st : St) (pid : String) (force : Bool) :
    (getSons env st pid force).2.db.haplogroups = st.db.haplogroups ∧
    (getSons env st pid force).2.db.explored = st.db.explored := by
  unfold getSons
  dsimp only
  split_ifs with h1
  · exact ⟨rfl, rfl⟩
  · have hfr := (fetchImmediateFamily_frame env st pid).2
    cases hE : fetchImmediateFamily env st pid with
    | mk fam st2 =>
      rw [hE] at hfr
      dsimp only at hfr ⊢
      cases hfoc : fam.focus with
      | none =>
        dsimp only
        constructor
        · exact (sonsFold_frame _ fam.children _).1.trans hfr.2.1
        · exact (sonsFold_frame _ fam.children _).2.trans hfr.2.2
      | some f =>
        dsimp only
        constructor
        · exact ((sonsFold_frame _ fam.children _).1.trans
            (saveProfile_dbFrame st2.db f).2.1).trans hfr.2.1
        · exact ((sonsFold_frame _ fam.children _).2.trans
            (saveProfile_dbFrame st2.db f).2.2).trans hfr.2.2

/-- The label-assignment helper touches only haplogroup rows (append-only)
and the propagated count or the conflict list; everything else, in
particular the fetch log and the checkpoint set, is untouched. -/
lemma assignHaplogroup_frame (st : St) (stats : Stats) (pid label source : String) :
    (assignHaplogroup st stats pid label source).2.1.fetchLog = st.fetchLog ∧
    (assignHaplogroup st stats pid label source).2.1.db.explored = st.db.explored ∧
    (∃ l, (assignHaplogroup st stats pid label source).2.1.db.haplogroups =
        st.db.haplogroups ++ l) ∧
    (assignHaplogroup st stats pid label source).2.2.skipped_explored =
        stats.skipped_explored ∧
    (assignHaplogroup st stats pid label source).2.2.resumed = stats.resumed ∧
    (assignHaplogroup st stats pid label source).2.2.haplogroup = stats.haplogroup := by
  unfold assignHaplogroup
  cases hx : dbGetHaplogroup st.db pid with
  | some existing =>
    dsimp only
    split_ifs <;> exact ⟨rfl, rfl, ⟨[], by simp⟩, rfl, rfl, rfl⟩
  | none =>
    dsimp only
    exact ⟨rfl, rfl, ⟨_, rfl⟩, rfl, rfl, rfl⟩

/-- Evolution relation along the full-tree descent: the checkpoint set only
grows, the skip counter only grows, haplogroup rows are append-only, and the
resumed flag and the label of the statistics never change. -/
def Evolves (a b : St × Stats) : Prop :=
  (∀ e ∈ a.1.db.explored, e ∈ b.1.db.explored) ∧
  a.2.skipped_explored ≤ b.2.skipped_explored ∧
  (∃ l, b.1.db.haplogroups = a.1.db.haplogroups ++ l) ∧
  b.2.resumed = a.2.resumed ∧
  b.2.haplogroup = a.2.haplogroup

lemma evolves_refl (a : St × Stats) : Evolves a a :=
  ⟨fun _ he => he, le_refl _, ⟨[], by simp⟩, rfl, rfl⟩

lemma evolves_trans (a b c : St × Stats) (h1 : Evolves a b) (h2 : Evolves b c) :
    Evolves a c := by
  obtain ⟨e1, s1, ⟨l1, hl1⟩, r1, g1⟩ := h1
  obtain ⟨e2, s2, ⟨l2, hl2⟩, r2, g2⟩ := h2
  exact ⟨fun e he => e2 e (e1 e he), s1.trans s2,
    ⟨l1 ++ l2, by rw [hl2, hl1, List.append_assoc]⟩, r2.trans r1, g2.trans g1⟩

lemma assign_evolves (st : St) (stats : Stats) (pid label source : String) :
    Evolves (st, stats) (assignHaplogroup st stats pid label source).2 := by
  obtain ⟨_, hexp, hhap, hsk, hres, hlab⟩ :=
    assignHaplogroup_frame st stats pid label source
  exact ⟨fun e he => hexp ▸ he, le_of_eq hsk.symm, hhap, hres, hlab⟩

/-- Beyond the configured depth ceiling the descent is the identity. -/
lemma propagateToAllSonsF_gt_cap (env : Env) (label source : String)
    (resume : Bool) (fuel : Nat) (st : St) (stats : Stats) (pid : String)
    (g : Nat) (hg : g > env.maxGenDown) :
    propagateToAllSonsF env label source resume fuel st stats pid g = (st, stats) := by
  cases fuel with
  | zero => rfl
  | succ fuel => simp only [propagateToAllSonsF, if_pos hg]

/-- Every step of the full-tree descent evolves the state monotonically. -/
lemma propagate_evolves (env : Env) (label source : String) (resume : Bool) :
    ∀ (fuel : Nat) (st : St) (stats : Stats) (pid : String) (g : Nat),
      Evolves (st, stats)
        (propagateToAllSonsF env label source resume fuel st stats pid g) := by
  intro fuel
  induction fuel with
  | zero => intro st stats pid g; exact evolves_refl _
  | succ fuel ih =>
    intro st stats pid g
    by_cases h1 : g > env.maxGenDown
    · rw [propagateToAllSonsF_gt_cap env label source resume _ st stats pid g h1]
      exact evolves_refl _
    · simp only [propagateToAllSonsF, if_neg h1]
      by_cases h2 : resume = true ∧ isExplored st.db pid label
      · rw [if_pos h2]
        by_cases h3 : dbGetSons st.db pid = []
        · rw [if_pos h3]
          exact evolves_refl _
        · rw [if_neg h3]
          refine evolves_trans _ _ _
            (⟨fun e he => he, Nat.le_succ _, ⟨[], by simp⟩, rfl, rfl⟩ :
              Evolves (st, stats)
                (st, { stats with skipped_explored := stats.skipped_explored + 1 })) ?_
          refine foldl_rel Evolves evolves_refl evolves_trans _ ?_ _ _
          intro b son
          exact evolves_trans _ _ _ (assign_evolves b.1 b.2 _ label _) (ih _ _ _ _)
      · rw [if_neg h2]
        have hfold : Evolves
            ({ (getSons env st pid true).2 with
                db := markExplored (getSons env st pid true).2.db pid label }, stats)
            ((getSons env st pid true).1.foldl (fun (acc : St × Stats) son =>
              let sid := profileKeyId son
              let asg := assignHaplogroup acc.1 acc.2 sid label ("propagated_" ++ source)
              propagateToAllSonsF env label source resume fuel asg.2.1 asg.2.2 sid (g + 1))
              ({ (getSons env st pid true).2 with
                  db := markExplored (getSons env st pid true).2.db pid label }, stats)) := by
          refine foldl_rel Evolves evolves_refl evolves_trans _ ?_ _ _
          intro b son
          exact evolves_trans _ _ _ (assign_evolves b.1 b.2 _ label _) (ih _ _ _ _)
        have hpre : Evolves (st, stats)
            ({ (getSons env st pid true).2 with
                db := markExplored (getSons env st pid true).2.db pid label }, stats) := by
          refine ⟨?_, le_refl _, ⟨[], ?_⟩, rfl, rfl⟩
          · intro e he
            refine mem_markExplored_mono pid label ?_
            rw [(getSons_frame env st pid true).2]
            exact he
          · dsimp only
            rw [markExplored_haplogroups, (getSons_frame env st pid true).1]
            simp
        have hmain := evolves_trans _ _ _ hpre hfold
        split_ifs with h4
        · obtain ⟨e1, s1, hl, r1, g1⟩ := hmain
          exact ⟨e1, s1, hl, r1, g1⟩
        · exact hmain

/-- A current assignment exists exactly when the profile has assignment rows. -/
lemma dbGetHaplogroup_isSome_iff (db : DB) (pid : String) :
    (dbGetHaplogroup db pid).isSome = true ↔
    db.haplogroups.filter (fun r => r.profile_id == pid) ≠ [] := by
  unfold dbGetHaplogroup
  dsimp only
  cases hgl : (List.filter (fun r => r.is_tested)
      (List.filter (fun r => r.profile_id == pid) db.haplogroups)).getLast? with
  | none =>
    dsimp only
    exact List.getLast?_isSome
  | some r =>
    dsimp only
    simp only [Option.isSome_some, true_iff]
    intro hnil
    rw [hnil] at hgl
    simp at hgl

/-- Appending assignment rows never destroys an existing current assignment. -/
lemma dbGetHaplogroup_isSome_of_append (d d' : DB) (l : List HRow) (pid : String)
    (hl : d'.haplogroups = d.haplogroups ++ l)
    (h : (dbGetHaplogroup d pid).isSome = true) :
    (dbGetHaplogroup d' pid).isSome = true := by
  rw [dbGetHaplogroup_isSome_iff] at h ⊢
  rw [hl, List.filter_append]
  intro hc
  exact h (List.append_eq_nil.mp hc).1

/-- After the assignment helper runs for a profile, that profile has a
current assignment (pre-existing or freshly inserted). -/
lemma assign_isSome (st : St) (stats : Stats) (pid label source : String) :
    (dbGetHaplogroup (assignHaplogroup st stats pid label source).2.1.db pid).isSome
      = true := by
  unfold assignHaplogroup
  cases hx : dbGetHaplogroup st.db pid with
  | some ex =>
    dsimp only
    split_ifs <;> (dsimp only; rw [hx]; rfl)
  | none =>
    dsimp only [addHaplogroup]
    rw [dbGetHaplogroup_isSome_iff]
    simp [List.filter_append]

/-- After the resume-branch fold of the full-tree descent, every cached son
it was given has a current assignment. -/
lemma fold_assign_isSome (env : Env) (label source : String) (resume : Bool)
    (fuel g : Nat) :
    ∀ (sons : List GProfile) (acc : St × Stats) (son : GProfile), son ∈ sons →
      (dbGetHaplogroup ((sons.foldl (fun (acc : St × Stats) son =>
          let sid := rowKeyId son
          let asg := assignHaplogroup acc.1 acc.2 sid label ("propagated_" ++ source)
          propagateToAllSonsF env label source resume fuel asg.2.1 asg.2.2 sid (g + 1))
        acc).1.db) (rowKeyId son)).isSome = true := by
  intro sons
  induction sons with
  | nil => intro acc son h; cases h
  | cons s ss ih =>
    intro acc son hmem
    rw [List.foldl_cons]
    rcases List.mem_cons.mp hmem with h | h
    · subst h
      have h1 := assign_isSome acc.1 acc.2 (rowKeyId son) label ("propagated_" ++ source)
      have h2 := propagate_evolves env label source resume fuel
        (assignHaplogroup acc.1 acc.2 (rowKeyId son) label ("propagated_" ++ source)).2.1
        (assignHaplogroup acc.1 acc.2 (rowKeyId son) label ("propagated_" ++ source)).2.2
        (rowKeyId son) (g + 1)
      obtain ⟨_, _, ⟨l2, hl2⟩, _, _⟩ := h2
      have h3 := dbGetHaplogroup_isSome_of_append _ _ l2 (rowKeyId son) hl2 h1
      have h4 : Evolves
          (propagateToAllSonsF env label source resume fuel
            (assignHaplogroup acc.1 acc.2 (rowKeyId son) label ("propagated_" ++ source)).2.1
            (assignHaplogroup acc.1 acc.2 (rowKeyId son) label ("propagated_" ++ source)).2.2
            (rowKeyId son) (g + 1))
          (ss.foldl (fun (acc : St × Stats) son =>
            let sid := rowKeyId son
            let asg := assignHaplogroup acc.1 acc.2 sid label ("propagated_" ++ source)
            propagateToAllSonsF env label source resume fuel asg.2.1 asg.2.2 sid (g + 1))
            (propagateToAllSonsF env label source resume fuel
              (assignHaplogroup acc.1 acc.2 (rowKeyId son) label ("propagated_" ++ source)).2.1
              (assignHaplogroup acc.1 acc.2 (rowKeyId son) label ("propagated_" ++ source)).2.2
              (rowKeyId son) (g + 1))) := by
        refine foldl_rel Evolves evolves_refl evolves_trans _ ?_ _ _
        intro b son2
        exact evolves_trans _ _ _ (assign_evolves b.1 b.2 _ label _)
          (propagate_evolves env label source resume fuel _ _ _ _)
      obtain ⟨_, _, ⟨l4, hl4⟩, _, _⟩ := h4
      exact dbGetHaplogroup_isSome_of_append _ _ l4 (rowKeyId son) hl4 h3
    · exact ih _ son h

/-- A father-chain fully stored in the database: starting at an identifier,
each listed profile is the stored father of the previous frontier (as the
join returns it), and past the last one no stored father exists. -/
def IsStoredChain (db : DB) : String → List GProfile → Prop
  | i, [] => dbGetFather db i = none
  | i, p :: rest => dbGetFather db i = some p ∧ IsStoredChain db (profileKeyId p) rest

instance instDecIsStoredChain (db : DB) :
    (i : String) → (ps : List GProfile) → Decidable (IsStoredChain db i ps)
  | _, [] => inferInstanceAs (Decidable (_ = _))
  | _, p :: rest =>
    @instDecidableAnd _ _ (inferInstanceAs (Decidable (_ = _)))
      (instDecIsStoredChain db (profileKeyId p) rest)

/-- Identifier of the frontier after following a stored chain to its end. -/
def chainEnd (start : String) (ps : List GProfile) : String :=
  ps.foldl (fun _ p => profileKeyId p) start

/-- A missed lookup whose remote fetch fails resolves to no father. -/
lemma getFather_err (env : Env) (st : St) (pid e : String)
    (hmiss : dbGetFather st.db pid = none)
    (herr : env.getImmediateFamily pid = .error e) :
    (getFather env st pid).1 = none := by
  have hf : fetchImmediateFamily env st pid =
      (emptyFamilyRel, { st with fetchLog := st.fetchLog ++ [pid] }) := by
    unfold fetchImmediateFamily
    rw [herr]
  unfold getFather
  rw [hmiss, hf]
  rfl

/-- The ascending traversal never returns more profiles than its bound. -/
lemma traverseUpF_len_le (env : Env) :
    ∀ (M : Nat) (st : St) (cur : String),
      ((traverseUpF env M st cur).1).length ≤ M := by
  intro M
  induction M with
  | zero => intro st cur; simp [traverseUpF]
  | succ n ih =>
    intro st cur
    rw [traverseUpF]
    cases hg : getFather env st cur with
    | mk fo st2 =>
      cases fo with
      | none => simp
      | some f =>
        dsimp only
        exact Nat.succ_le_succ (ih st2 (profileKeyId f))

/-- On a stored chain whose frontier past the end cannot be fetched, the
ascending traversal returns exactly the first min(N, M) chain profiles. -/
lemma traverseUpF_chain (env : Env) (e : String) :
    ∀ (ps : List GProfile) (start : String) (st : St) (M : Nat),
      IsStoredChain st.db start ps →
      env.getImmediateFamily (chainEnd start ps) = .error e →
      (traverseUpF env M st start).1 = ps.take M := by
  intro ps
  induction ps with
  | nil =>
    intro start st M hch herr
    cases M with
    | zero => rfl
    | succ n =>
      rw [traverseUpF]
      cases hg : getFather env st start with
      | mk fo st2 =>
        have hfo : fo = none := by
          have := getFather_err env st start e hch herr
          rw [hg] at this
          exact this
        subst hfo
        simp
  | cons p rest ih =>
    intro start st M hch herr
    cases M with
    | zero => rfl
    | succ n =>
      rw [traverseUpF]
      have hgf : getFather env st start = (some p, st) := by
        unfold getFather
        rw [hch.1]
      rw [hgf]
      dsimp only
      rw [List.take_succ_cons, ih (profileKeyId p) st n hch.2 herr]

/-- Every record emitted by the descending traversal lies between its entry
generation and the bound: a branch stops expanding past the bound. -/
lemma traverseDownF_gen_bound (env : Env) (M : Nat) :
    ∀ (fuel : Nat) (st : St) (cur : String) (g : Nat) (path : List String) (r : DRec),
      r ∈ (traverseDownF env M fuel st cur g path).1 →
      g ≤ r.generation ∧ r.generation ≤ M := by
  intro fuel
  induction fuel with
  | zero => intro st cur g path r h; simp [traverseDownF] at h
  | succ fuel ih =>
    intro st cur g path r h
    rw [traverseDownF] at h
    by_cases hg : g > M
    · rw [if_pos hg] at h
      simp at h
    · rw [if_neg hg] at h
      dsimp only at h
      have hfold : ∀ (sons : List GProfile) (acc : List DRec × St),
          (∀ r2 ∈ acc.1, g ≤ r2.generation ∧ r2.generation ≤ M) →
          ∀ r2 ∈ ((sons.foldl (fun (acc : List DRec × St) son =>
              let sid := profileKeyId son
              let r : DRec := { profile := son, generation := g, path := path ++ [sid] }
              let sub := traverseDownF env M fuel acc.2 sid (g + 1) (path ++ [sid])
              (acc.1 ++ [r] ++ sub.1, sub.2)) acc).1),
            g ≤ r2.generation ∧ r2.generation ≤ M := by
        intro sons
        induction sons with
        | nil => intro acc hacc r2 h2; exact hacc r2 h2
        | cons s ss ihs =>
          intro acc hacc r2 h2
          rw [List.foldl_cons] at h2
          refine ihs _ ?_ r2 h2
          intro r3 h3
          rcases List.mem_append.mp h3 with h4 | h4
          · rcases List.mem_append.mp h4 with h5 | h5
            · exact hacc r3 h5
            · obtain rfl := List.mem_singleton.mp h5
              exact ⟨le_refl g, Nat.le_of_not_lt hg⟩
          · have := ih acc.2 (profileKeyId s) (g + 1) (path ++ [profileKeyId s]) r3 h4
            exact ⟨Nat.le_of_succ_le this.1, this.2⟩
      exact hfold _ _ (fun r2 h2 => absurd h2 (List.not_mem_nil r2)) r h

/-- Whenever the cache branch of get_sons does not apply, a remote call for
exactly the requested identifier is issued (preceded by a rate-limit wait). -/
lemma getSons_fetch_log (env : Env) (st : St) (pid : String) (force : Bool)
    (h : ¬(force = false ∧ dbGetSons st.db pid ≠ [])) :
    (getSons env st pid force).2.fetchLog = st.fetchLog ++ [pid] := by
  unfold getSons
  dsimp only
  rw [if_neg h]
  cases hE : fetchImmediateFamily env st pid with
  | mk fam st2 =>
    have hlog := (fetchImmediateFamily_frame env st pid).1
    rw [hE] at hlog
    dsimp only at hlog
    cases fam.focus <;> exact hlog

/-- Every link present after the male-children fold of get_sons was already
present or links the normalized parent identifier to a reported child. -/
lemma sonsFold_links_mem (apid : String) :
    ∀ (children : List GProfile) (acc : List GProfile × DB) (l : String × String),
      l ∈ ((children.foldl (fun (acc : List GProfile × DB) child =>
          if child.gender == some "male" then
            let db := saveProfile acc.2 child
            let db := addPaternalLink db apid (child.id.getD "")
            (acc.1 ++ [child], db)
          else acc) acc).2).paternal_links →
      l ∈ acc.2.paternal_links ∨ ∃ c ∈ children, l = (apid, c.id.getD "") := by
  intro children
  induction children with
  | nil => intro acc l h; exact Or.inl h
  | cons c cs ih =>
    intro acc l h
    rw [List.foldl_cons] at h
    rcases ih _ l h with h1 | ⟨c2, hc2, he⟩
    · by_cases hm : (c.gender == some "male") = true
      · rw [if_pos hm] at h1
        dsimp only at h1
        rcases mem_addPaternalLink h1 with h2 | h2
        · rw [(saveProfile_dbFrame acc.2 c).1] at h2
          exact Or.inl h2
        · exact Or.inr ⟨c, List.mem_cons_self c cs, h2⟩
      · rw [if_neg hm] at h1
        exact Or.inl h1
    · exact Or.inr ⟨c2, List.mem_cons_of_mem c hc2, he⟩

/-- Looking up a profile with no assignment rows yields no assignment. -/
lemma dbGetHaplogroup_none (db : DB) (pid : String)
    (hno : db.haplogroups.filter (fun r => r.profile_id == pid) = []) :
    dbGetHaplogroup db pid = none := by
  unfold dbGetHaplogroup
  rw [hno]
  rfl

/-- After appending the first row for a profile, that row is its current
assignment. -/
lemma dbGetHaplogroup_append_single (db : DB) (row : HRow) (pid : String)
    (hno : db.haplogroups.filter (fun r => r.profile_id == pid) = [])
    (hpid : row.profile_id = pid) :
    dbGetHaplogroup { db with haplogroups := db.haplogroups ++ [row] } pid
      = some row := by
  unfold dbGetHaplogroup
  dsimp only
  rw [List.filter_append, hno]
  have h1 : List.filter (fun r => r.profile_id == pid) [row] = [row] := by
    simp [hpid]
  rw [List.nil_append, h1]
  cases ht : row.is_tested <;> simp [List.filter_cons, ht]

/-- C5: label assignment is idempotent per (profile, label): starting from a
profile with no stored assignment rows, the first call inserts the one row
and returns assigned=true, and a second call with the same pair returns
assigned=false, changes neither the store nor the statistics, and leaves
exactly one stored assignment row for the pair. -/
theorem assign_label_idempotent_per_pair (st : St) (stats : Stats)
    (pid label source : String)
    (hno : st.db.haplogroups.filter (fun r => r.profile_id == pid) = []) :
    let a1 := assignHaplogroup st stats pid label source
    let a2 := assignHaplogroup a1.2.1 a1.2.2 pid label source
    a1.1 = true ∧ a2.1 = false ∧ a2.2.1 = a1.2.1 ∧ a2.2.2 = a1.2.2 ∧
    (a2.2.1.db.haplogroups.filter
      (fun r => r.profile_id == pid && r.haplogroup == label)).length = 1 := by
  intro a1 a2
  have hget : dbGetHaplogroup st.db pid = none := dbGetHaplogroup_none st.db pid hno
  have ha1 : a1 = (true, { st with db := addHaplogroup st.db pid label source ((source == "FTDNA") || (source == "YFull")) none (if (source.splitOn "propagated").length > 1 then "propagated" else "confirmed") }, { stats with total_propagated := stats.total_propagated + 1 }) := by
    show assignHaplogroup st stats pid label source = _
    unfold assignHaplogroup
    rw [hget]
  have hget2 : dbGetHaplogroup a1.2.1.db pid = some
      { profile_id := pid, haplogroup := label, source := source
        is_tested := ((source == "FTDNA") || (source == "YFull"))
        is_propagated := false, propagated_from := none
        confidence := (if (source.splitOn "propagated").length > 1 then
          "propagated" else "confirmed") } := by
    rw [ha1]
    exact dbGetHaplogroup_append_single st.db _ pid hno rfl
  have ha2 : a2 = (false, a1.2.1, a1.2.2) := by
    show assignHaplogroup a1.2.1 a1.2.2 pid label source = _
    unfold assignHaplogroup
    rw [hget2]
    simp
  have hpair : st.db.haplogroups.filter
      (fun r => r.profile_id == pid && r.haplogroup == label) = [] := by
    rw [List.filter_eq_nil_iff]
    intro a ha
    have h2 := List.filter_eq_nil_iff.mp hno a ha
    simp only [Bool.and_eq_true, beq_iff_eq] at h2 ⊢
    intro hc
    exact h2 hc.1
  refine ⟨by rw [ha1], by rw [ha2], by rw [ha2], by rw [ha2], ?_⟩
  rw [ha2]
  rw [ha1]
  dsimp only [addHaplogroup]
  rw [List.filter_append, hpair, List.nil_append]
  simp

/-- C5 witness data: an empty store and a fresh statistics record. -/
def emptyDB : DB := ⟨[], [], [], [], []⟩

def emptySt : St := ⟨emptyDB, []⟩

def stats0 : Stats := ⟨"R-X", none, 0, 0, 0, [], false⟩

theorem assign_label_idempotent_per_pair_witness :
    (emptySt.db.haplogroups.filter (fun r => r.profile_id == "p") = []) ∧
    (let a1 := assignHaplogroup emptySt stats0 "p" "R-X" "FTDNA"
     let a2 := assignHaplogroup a1.2.1 a1.2.2 "p" "R-X" "FTDNA"
     a1.1 = true ∧ a2.1 = false ∧ a2.2.1 = a1.2.1 ∧ a2.2.2 = a1.2.2 ∧
     (a2.2.1.db.haplogroups.filter
       (fun r => r.profile_id == "p" && r.haplogroup == "R-X")).length = 1) :=
  ⟨rfl, assign_label_idempotent_per_pair emptySt stats0 "p" "R-X" "FTDNA" rfl⟩

/-- C6: proposing a different label for a profile that already has one
returns assigned=false, appends exactly one conflict record carrying the
profile identifier, the existing label and the proposed label, inserts no
assignment row (the store is unchanged), and leaves the stored current
assignment as it was. -/
theorem assign_label_conflict (st : St) (stats : Stats) (pid bLabel source : String)
    (ex : HRow) (hex : dbGetHaplogroup st.db pid = some ex)
    (hne : ex.haplogroup ≠ bLabel) :
    (assignHaplogroup st stats pid bLabel source).1 = false ∧
    (assignHaplogroup st stats pid bLabel source).2.1 = st ∧
    (assignHaplogroup st stats pid bLabel source).2.2.conflicts =
      stats.conflicts ++
        [{ profile_id := pid, existing := ex.haplogroup, new := bLabel }] ∧
    dbGetHaplogroup (assignHaplogroup st stats pid bLabel source).2.1.db pid
      = some ex ∧
    (assignHaplogroup st stats pid bLabel source).2.2.total_propagated =
      stats.total_propagated := by
  unfold assignHaplogroup
  rw [hex]
  dsimp only
  rw [if_pos hne]
  exact ⟨rfl, rfl, rfl, hex, rfl⟩

def c6Row : HRow := ⟨"p", "A", "FTDNA", true, false, none, "confirmed"⟩

def c6St : St := ⟨⟨[], [], [c6Row], [], []⟩, []⟩

theorem assign_label_conflict_witness :
    dbGetHaplogroup c6St.db "p" = some c6Row ∧ c6Row.haplogroup ≠ "B" ∧
    ((assignHaplogroup c6St stats0 "p" "B" "FTDNA").1 = false ∧
     (assignHaplogroup c6St stats0 "p" "B" "FTDNA").2.1 = c6St ∧
     (assignHaplogroup c6St stats0 "p" "B" "FTDNA").2.2.conflicts =
       stats0.conflicts ++
         [{ profile_id := "p", existing := c6Row.haplogroup, new := "B" }] ∧
     dbGetHaplogroup (assignHaplogroup c6St stats0 "p" "B" "FTDNA").2.1.db "p"
       = some c6Row ∧
     (assignHaplogroup c6St stats0 "p" "B" "FTDNA").2.2.total_propagated =
       stats0.total_propagated) :=
  ⟨by decide, by decide,
    assign_label_conflict c6St stats0 "p" "B" "FTDNA" c6Row (by decide) (by decide)⟩

/-- C7: a failed remote family fetch is caught and downgraded: the fetch
helper returns the empty relationship dict, the father resolver reports no
father, and the son resolver reports no sons (whether forced or on a cache
miss), instead of propagating the error. -/
theorem fetch_failure_contained (env : Env) (st : St) (pid e : String)
    (herr : env.getImmediateFamily pid = .error e) :
    (fetchImmediateFamily env st pid).1 = emptyFamilyRel ∧
    (dbGetFather st.db pid = none → (getFather env st pid).1 = none) ∧
    (getSons env st pid true).1 = [] ∧
    (dbGetSons st.db pid = [] → (getSons env st pid false).1 = []) := by
  have hf : fetchImmediateFamily env st pid =
      (emptyFamilyRel, { st with fetchLog := st.fetchLog ++ [pid] }) := by
    unfold fetchImmediateFamily
    rw [herr]
  refine ⟨by rw [hf], fun hmiss => getFather_err env st pid e hmiss herr, ?_, ?_⟩
  · unfold getSons
    dsimp only
    rw [if_neg (by simp), hf]
    rfl
  · intro hempty
    unfold getSons
    dsimp only
    rw [if_neg (by simp [hempty]), hf]
    rfl

/-- Shared witness environment: a directory client whose every call fails. -/
def errEnv : Env := ⟨fun _ => .error "down", fun _ => .error "down", 50, 50⟩

theorem fetch_failure_contained_witness :
    errEnv.getImmediateFamily "p" = .error "down" ∧
    ((fetchImmediateFamily errEnv emptySt "p").1 = emptyFamilyRel ∧
     (dbGetFather emptySt.db "p" = none → (getFather errEnv emptySt "p").1 = none) ∧
     (getSons errEnv emptySt "p" true).1 = [] ∧
     (dbGetSons emptySt.db "p" = [] → (getSons errEnv emptySt "p" false).1 = [])) :=
  ⟨rfl, fetch_failure_contained errEnv emptySt "p" "down" rfl⟩

/-- C8: once the store resolves a father for a child (a paternal link joined
to the cached father profile), get_father returns that cached profile and
leaves the state untouched: no directory call and no rate-limit wait. -/
theorem cached_father_no_remote_call (env : Env) (st : St) (c : String)
    (f : GProfile) (h : dbGetFather st.db c = some f) :
    getFather env st c = (some f, st) ∧
    (getFather env st c).2.fetchLog = st.fetchLog := by
  have heq : getFather env st c = (some f, st) := by
    unfold getFather
    rw [h]
  exact ⟨heq, by rw [heq]⟩

/-- Shared witness row constructor: a stored male profile row. -/
def dbRow (s : String) : GProfile :=
  ⟨none, some s, some "male", none, none, none, none⟩

def c8St : St := ⟨⟨[dbRow "f", dbRow "c"], [("f", "c")], [], [], []⟩, []⟩

theorem cached_father_no_remote_call_witness :
    dbGetFather c8St.db "c" = some (dbRow "f") ∧
    (getFather errEnv c8St "c" = (some (dbRow "f"), c8St) ∧
     (getFather errEnv c8St "c").2.fetchLog = c8St.fetchLog) :=
  ⟨by decide, cached_father_no_remote_call errEnv c8St "c" (dbRow "f") (by decide)⟩

/-- C10: an empty cached son set is never a cache hit: with force off and no
stored links from the profile, get_sons behaves exactly as a forced fetch
and issues one remote call for the profile. -/
theorem empty_son_cache_refetches (env : Env) (st : St) (pid : String)
    (h : dbGetSons st.db pid = []) :
    getSons env st pid false = getSons env st pid true ∧
    (getSons env st pid false).2.fetchLog = st.fetchLog ++ [pid] := by
  constructor
  · unfold getSons
    dsimp only
    rw [if_neg (by simp [h]), if_neg (by simp)]
  · exact getSons_fetch_log env st pid false (by simp [h])

theorem empty_son_cache_refetches_witness :
    dbGetSons emptySt.db "p" = [] ∧
    (getSons errEnv emptySt "p" false = getSons errEnv emptySt "p" true ∧
     (getSons errEnv emptySt "p" false).2.fetchLog = emptySt.fetchLog ++ ["p"]) :=
  ⟨rfl, empty_son_cache_refetches errEnv emptySt "p" rfl⟩

/-- C3: on a stored acyclic father-chain of length N whose end cannot be
resolved remotely, the ascending traversal with bound M returns exactly the
first min(N, M) chain profiles, nearest first; and for any state and father
relation whatsoever the traversal emits at most M profiles, so a reciprocal
father link makes the bound fire instead of looping forever. -/
theorem traverse_up_min_chain (env : Env) (st : St) (start e : String)
    (ps : List GProfile) (M : Nat)
    (hchain : IsStoredChain st.db start ps)
    (hend : env.getImmediateFamily (chainEnd start ps) = .error e) :
    (traverseUp env st start M).1 = ps.take M ∧
    ((traverseUp env st start M).1).length = min ps.length M ∧
    (∀ (env2 : Env) (st2 : St) (s2 : String) (M2 : Nat),
      ((traverseUp env2 st2 s2 M2).1).length ≤ M2) := by
  have h1 := traverseUpF_chain env e ps start st M hchain hend
  refine ⟨h1, ?_, fun env2 st2 s2 M2 => traverseUpF_len_le env2 M2 st2 s2⟩
  show ((traverseUpF env M st start).1).length = min ps.length M
  rw [h1, List.length_take, Nat.min_comm]

def c3St : St :=
  ⟨⟨[dbRow "a", dbRow "f1", dbRow "f2"], [("f1", "a"), ("f2", "f1")], [], [], []⟩, []⟩

def c3Chain : List GProfile := [dbRow "f1", dbRow "f2"]

theorem traverse_up_min_chain_witness :
    IsStoredChain c3St.db "a" c3Chain ∧
    errEnv.getImmediateFamily (chainEnd "a" c3Chain) = .error "down" ∧
    ((traverseUp errEnv c3St "a" 5).1 = c3Chain.take 5 ∧
     ((traverseUp errEnv c3St "a" 5).1).length = min c3Chain.length 5 ∧
     (∀ (env2 : Env) (st2 : St) (s2 : String) (M2 : Nat),
       ((traverseUp env2 st2 s2 M2).1).length ≤ M2)) :=
  ⟨by decide, rfl,
    traverse_up_min_chain errEnv c3St "a" "down" c3Chain 5 (by decide) rfl⟩

/-- Synthetic store for the descend-completeness scenario: P has sons S1 and
S2, and S1 has son S3, all cached with their profile rows. -/
def c4DB (pP pS1 pS2 pS3 : String) : DB :=
  ⟨[dbRow pP, dbRow pS1, dbRow pS2, dbRow pS3],
   [(pP, pS1), (pP, pS2), (pS1, pS3)], [], [], []⟩

/-- C4: the descending traversal emits only 1-based generations within the
bound (a branch stops expanding past it), and on the synthetic tree where P
has sons S1 and S2 and S1 has son S3 it returns exactly S1 at generation 1,
S3 at generation 2 with path P, S1, S3, and S2 at generation 1, in
depth-first pre-order. -/
theorem traverse_down_preorder (envA : Env) (stA : St) (startA : String) (MA : Nat)
    (env : Env) (msg pP pS1 pS2 pS3 : String)
    (henv : ∀ i, env.getImmediateFamily i = .error msg)
    (h1 : pP ≠ pS1) (h2 : pP ≠ pS2) (h3 : pP ≠ pS3)
    (h4 : pS1 ≠ pS2) (h5 : pS1 ≠ pS3) (h6 : pS2 ≠ pS3) :
    (∀ r ∈ (traverseDown envA stA startA MA).1,
      1 ≤ r.generation ∧ r.generation ≤ MA) ∧
    (traverseDown env ⟨c4DB pP pS1 pS2 pS3, []⟩ pP 5).1 =
      [⟨dbRow pS1, 1, [pP, pS1]⟩, ⟨dbRow pS3, 2, [pP, pS1, pS3]⟩,
       ⟨dbRow pS2, 1, [pP, pS2]⟩] := by
  constructor
  · intro r hr
    exact traverseDownF_gen_bound envA MA (MA + 1) stA startA 1 [startA] r hr
  · have b1 : (pP == pS1) = false := beq_eq_false_iff_ne.mpr h1
    have b2 : (pP == pS2) = false := beq_eq_false_iff_ne.mpr h2
    have b3 : (pP == pS3) = false := beq_eq_false_iff_ne.mpr h3
    have b4 : (pS1 == pS2) = false := beq_eq_false_iff_ne.mpr h4
    have b5 : (pS1 == pS3) = false := beq_eq_false_iff_ne.mpr h5
    have b6 : (pS2 == pS3) = false := beq_eq_false_iff_ne.mpr h6
    have c1 : (pS1 == pP) = false := beq_eq_false_iff_ne.mpr (Ne.symm h1)
    have c2 : (pS2 == pP) = false := beq_eq_false_iff_ne.mpr (Ne.symm h2)
    have c3 : (pS3 == pP) = false := beq_eq_false_iff_ne.mpr (Ne.symm h3)
    have c4 : (pS2 == pS1) = false := beq_eq_false_iff_ne.mpr (Ne.symm h4)
    have c5 : (pS3 == pS1) = false := beq_eq_false_iff_ne.mpr (Ne.symm h5)
    have c6 : (pS3 == pS2) = false := beq_eq_false_iff_ne.mpr (Ne.symm h6)
    have hsP : dbGetSons (c4DB pP pS1 pS2 pS3) pP = [dbRow pS1, dbRow pS2] := by
      simp [dbGetSons, c4DB, dbRow, List.filter_cons, List.find?_cons,
        List.filterMap_cons, b1, b2, b3, b4, b5, b6, c1, c2, c3, c4, c5, c6]
    have hsS1 : dbGetSons (c4DB pP pS1 pS2 pS3) pS1 = [dbRow pS3] := by
      simp [dbGetSons, c4DB, dbRow, List.filter_cons, List.find?_cons,
        List.filterMap_cons, b1, b2, b3, b4, b5, b6, c1, c2, c3, c4, c5, c6]
    have hsS2 : dbGetSons (c4DB pP pS1 pS2 pS3) pS2 = [] := by
      simp [dbGetSons, c4DB, dbRow, List.filter_cons, List.find?_cons,
        List.filterMap_cons, b1, b2, b3, b4, b5, b6, c1, c2, c3, c4, c5, c6]
    have hsS3 : dbGetSons (c4DB pP pS1 pS2 pS3) pS3 = [] := by
      simp [dbGetSons, c4DB, dbRow, List.filter_cons, List.find?_cons,
        List.filterMap_cons, b1, b2, b3, b4, b5, b6, c1, c2, c3, c4, c5, c6]
    simp [traverseDown, traverseDownF, getSons, hsP, hsS1, hsS2, hsS3,
      profileKeyId, dbRow, strOr, fetchImmediateFamily, henv, emptyFamilyRel]

theorem traverse_down_preorder_witness :
    (∀ i, errEnv.getImmediateFamily i = .error "down") ∧
    ("P" : String) ≠ "S1" ∧
    ((∀ r ∈ (traverseDown errEnv emptySt "x" 50).1,
        1 ≤ r.generation ∧ r.generation ≤ 50) ∧
     (traverseDown errEnv ⟨c4DB "P" "S1" "S2" "S3", []⟩ "P" 5).1 =
       [⟨dbRow "S1", 1, ["P", "S1"]⟩, ⟨dbRow "S3", 2, ["P", "S1", "S3"]⟩,
        ⟨dbRow "S2", 1, ["P", "S2"]⟩]) :=
  ⟨fun _ => rfl, by decide,
    traverse_down_preorder errEnv emptySt "x" 50 errEnv "down" "P" "S1" "S2" "S3"
      (fun _ => rfl) (by decide) (by decide) (by decide) (by decide) (by decide)
      (by decide)⟩

/-- C9: when the remote response resolves a focus identifier, every paternal
link persisted by get_father or by a forced get_sons uses that directory
normalized focus identifier on the callers side of the link and a node
identifier reported by the response on the other side; the caller supplied
identifier is never stored at face value. -/
theorem links_use_normalized_ids (env : Env) (st : St) (pid : String)
    (fd : FamilyData) (fp : GProfile) (fid : String)
    (hok : env.getImmediateFamily pid = .ok fd)
    (hfoc : fd.focus = some fp) (hid : fp.id = some fid) :
    (∀ l ∈ (getFather env st pid).2.db.paternal_links,
      l ∈ st.db.paternal_links ∨
      (l.2 = fid ∧ ∃ par ∈ (fetchImmediateFamily env st pid).1.parents,
        l.1 = par.id.getD "")) ∧
    (∀ l ∈ (getSons env st pid true).2.db.paternal_links,
      l ∈ st.db.paternal_links ∨
      (l.1 = fid ∧ ∃ c ∈ (fetchImmediateFamily env st pid).1.children,
        l.2 = c.id.getD "")) := by
  have hfocus0 := fetchImmediateFamily_focus env st pid fd hok
  have hfr := (fetchImmediateFamily_frame env st pid).2
  constructor
  · unfold getFather
    cases hdbf : dbGetFather st.db pid with
    | some f => intro l hl; exact Or.inl hl
    | none =>
      cases hE : fetchImmediateFamily env st pid with
      | mk fam st2 =>
        rw [hE] at hfocus0 hfr
        dsimp only at hfocus0 hfr ⊢
        rw [hfocus0, hfoc]
        dsimp only
        rw [hid]
        cases hfind : fam.parents.find? (fun p => p.gender == some "male") with
        | none =>
          intro l hl
          dsimp only at hl
          rw [(saveProfile_dbFrame st2.db fp).1] at hl
          rw [hfr.1] at hl
          exact Or.inl hl
        | some parent =>
          intro l hl
          dsimp only at hl
          rcases mem_addPaternalLink hl with h2 | h2
          · rw [(saveProfile_dbFrame (saveProfile st2.db fp) parent).1,
              (saveProfile_dbFrame st2.db fp).1, hfr.1] at h2
            exact Or.inl h2
          · right
            refine ⟨by subst h2; rfl, parent, List.mem_of_find?_eq_some hfind,
              by subst h2; rfl⟩
  · unfold getSons
    dsimp only
    rw [if_neg (by simp)]
    cases hE : fetchImmediateFamily env st pid with
    | mk fam st2 =>
      rw [hE] at hfocus0 hfr
      dsimp only at hfocus0 hfr ⊢
      rw [hfocus0, hfoc]
      dsimp only
      rw [hid]
      intro l hl
      rcases sonsFold_links_mem fid fam.children _ l hl with h2 | ⟨c, hc, he⟩
      · dsimp only at h2
        rw [(saveProfile_dbFrame st2.db fp).1, hfr.1] at h2
        exact Or.inl h2
      · right
        refine ⟨by subst he; rfl, c, hc, by subst he; rfl⟩

def c9Focus : GProfile := ⟨some "profile-9", none, some "male", none, none, none, none⟩

def c9Father : GProfile := ⟨some "profile-7", none, some "male", none, none, none, none⟩

def c9Son : GProfile := ⟨some "profile-8", none, some "male", none, none, none, none⟩

/-- Witness response: the caller asks for g-abc, the directory resolves the
focus to profile-9 with father profile-7 and son profile-8 through unions. -/
def c9Fd : FamilyData :=
  ⟨some c9Focus,
   [("profile-9", ⟨c9Focus, [("union-1", "child"), ("union-2", "partner")]⟩),
    ("profile-7", ⟨c9Father, []⟩),
    ("profile-8", ⟨c9Son, []⟩),
    ("union-1", ⟨⟨some "union-1", none, none, none, none, none, none⟩,
      [("profile-9", "child"), ("profile-7", "partner")]⟩),
    ("union-2", ⟨⟨some "union-2", none, none, none, none, none, none⟩,
      [("profile-9", "partner"), ("profile-8", "child")]⟩)]⟩

def c9Env : Env :=
  ⟨fun i => if i = "g-abc" then .ok c9Fd else .error "e", fun _ => .error "e", 50, 50⟩

theorem links_use_normalized_ids_witness :
    c9Env.getImmediateFamily "g-abc" = .ok c9Fd ∧ c9Fd.focus = some c9Focus ∧
    c9Focus.id = some "profile-9" ∧
    ((∀ l ∈ (getFather c9Env emptySt "g-abc").2.db.paternal_links,
       l ∈ emptySt.db.paternal_links ∨
       (l.2 = "profile-9" ∧
        ∃ par ∈ (fetchImmediateFamily c9Env emptySt "g-abc").1.parents,
          l.1 = par.id.getD "")) ∧
     (∀ l ∈ (getSons c9Env emptySt "g-abc" true).2.db.paternal_links,
       l ∈ emptySt.db.paternal_links ∨
       (l.1 = "profile-9" ∧
        ∃ c ∈ (fetchImmediateFamily c9Env emptySt "g-abc").1.children,
          l.2 = c.id.getD ""))) :=
  ⟨rfl, rfl, rfl,
    links_use_normalized_ids c9Env emptySt "g-abc" c9Fd c9Focus "profile-9" rfl rfl rfl⟩

/-- Composing the label assignment with the recursive descent preserves the
resumed flag and the label of the statistics record. -/
lemma assign_then_propagate_stats (env : Env) (label source : String)
    (resume : Bool) (fuel : Nat) (st : St) (stats : Stats) (pid2 pid : String)
    (g : Nat) :
    (propagateToAllSonsF env label source resume fuel
        (assignHaplogroup st stats pid2 label source).2.1
        (assignHaplogroup st stats pid2 label source).2.2 pid g).2.resumed =
      stats.resumed ∧
    (propagateToAllSonsF env label source resume fuel
        (assignHaplogroup st stats pid2 label source).2.1
        (assignHaplogroup st stats pid2 label source).2.2 pid g).2.haplogroup =
      stats.haplogroup := by
  have h3 := evolves_trans _ _ _ (assign_evolves st stats pid2 label source)
    (propagate_evolves env label source resume fuel _ _ pid g)
  exact ⟨h3.2.2.2.1, h3.2.2.2.2⟩

/-- C1: in the full-tree propagation, any visit that force-fetches a
profiles sons (the non-resume branch) leaves that (profile, label) pair
checkpointed in the store when the visit returns; the checkpoint marking is
write-once and safe to call redundantly; and the call always completes,
returning the statistics record (root identifier, total newly propagated
count, skipped-explored count, max generation depth, conflict list, resumed
flag) with the resumed flag and label it was started with. -/
theorem full_tree_marks_explored (env : Env) (label source : String) (resume : Bool) :
    (∀ (fuel : Nat) (st : St) (stats : Stats) (pid : String) (g : Nat),
      g ≤ env.maxGenDown →
      ¬(resume = true ∧ isExplored st.db pid label) →
      isExplored
        (propagateToAllSonsF env label source resume (fuel + 1) st stats pid g).1.db
        pid label) ∧
    (∀ (db : DB) (pid : String),
      markExplored (markExplored db pid label) pid label = markExplored db pid label) ∧
    (∀ (st : St) (startId : String),
      (propagateFullTree env st startId label source resume).1.resumed = resume ∧
      (propagateFullTree env st startId label source resume).1.haplogroup = label) := by
  refine ⟨?_, ?_, ?_⟩
  · intro fuel st stats pid g hg hnr
    simp only [propagateToAllSonsF, if_neg (Nat.not_lt.mpr hg), if_neg hnr]
    have hmem : (pid, label) ∈
        (markExplored (getSons env st pid true).2.db pid label).explored :=
      mem_markExplored_self _ pid label
    have hfold : Evolves
        ({ (getSons env st pid true).2 with
            db := markExplored (getSons env st pid true).2.db pid label }, stats)
        ((getSons env st pid true).1.foldl (fun (acc : St × Stats) son =>
          let sid := profileKeyId son
          let asg := assignHaplogroup acc.1 acc.2 sid label ("propagated_" ++ source)
          propagateToAllSonsF env label source resume fuel asg.2.1 asg.2.2 sid (g + 1))
          ({ (getSons env st pid true).2 with
              db := markExplored (getSons env st pid true).2.db pid label }, stats)) := by
      refine foldl_rel Evolves evolves_refl evolves_trans _ ?_ _ _
      intro b son
      exact evolves_trans _ _ _ (assign_evolves b.1 b.2 _ label _)
        (propagate_evolves env label source resume fuel _ _ _ _)
    have h2 := hfold.1 (pid, label) hmem
    split_ifs <;> exact h2
  · intro db pid
    have hstep : ∀ d : DB, (pid, label) ∈ d.explored → markExplored d pid label = d := by
      intro d hd
      unfold markExplored
      rw [if_pos hd]
    by_cases h : (pid, label) ∈ db.explored
    · rw [hstep db h]
      exact hstep db h
    · have hmk : markExplored db pid label =
          { db with explored := db.explored ++ [(pid, label)] } := by
        unfold markExplored
        rw [if_neg h]
      rw [hmk, hstep _ (List.mem_append.mpr (Or.inr (List.mem_singleton.mpr rfl)))]
  · intro st startId
    unfold propagateFullTree
    dsimp only
    exact ⟨(assign_then_propagate_stats env label source resume _ _ _ _ _ _).1,
      (assign_then_propagate_stats env label source resume _ _ _ _ _ _).2⟩

theorem full_tree_marks_explored_witness :
    ((1 : Nat) ≤ errEnv.maxGenDown) ∧
    (¬(false = true ∧ isExplored emptySt.db "p" "R-X")) ∧
    isExplored
      (propagateToAllSonsF errEnv "R-X" "FTDNA" false (0 + 1) emptySt stats0 "p" 1).1.db
      "p" "R-X" ∧
    markExplored (markExplored emptyDB "p" "R-X") "p" "R-X" =
      markExplored emptyDB "p" "R-X" ∧
    (propagateFullTree errEnv emptySt "p" "R-X" "FTDNA" false).1.resumed = false :=
  ⟨by decide, by decide,
    (full_tree_marks_explored errEnv "R-X" "FTDNA" false).1 0 emptySt stats0 "p" 1
      (by decide) (by decide),
    (full_tree_marks_explored errEnv "R-X" "FTDNA" false).2.1 emptyDB "p",
    ((full_tree_marks_explored errEnv "R-X" "FTDNA" false).2.2 emptySt "p").1⟩

/-- C2 (amended): visiting a checkpointed profile in resume mode reads its
sons from the store only.  When the store holds no cached sons the visit
returns with state and statistics untouched (so no remote fetch, no label
work, and no skip-counter increment); when cached sons exist the
skipped-explored counter is incremented (at least once in the result),
every cached son ends up carrying an assignment, and at the depth ceiling
the whole visit issues no remote call at all. -/
theorem resume_branch_skips_fetch (env : Env) (st : St) (stats : Stats)
    (label source pid : String) (fuel g : Nat)
    (hg : g ≤ env.maxGenDown)
    (hex : isExplored st.db pid label) :
    (dbGetSons st.db pid = [] →
      propagateToAllSonsF env label source true (fuel + 1) st stats pid g =
        (st, stats)) ∧
    (dbGetSons st.db pid ≠ [] →
      stats.skipped_explored + 1 ≤
        (propagateToAllSonsF env label source true (fuel + 1) st stats pid g).2.skipped_explored) ∧
    (∀ son ∈ dbGetSons st.db pid,
      (dbGetHaplogroup
        (propagateToAllSonsF env label source true (fuel + 1) st stats pid g).1.db
        (rowKeyId son)).isSome = true) ∧
    (g = env.maxGenDown →
      (propagateToAllSonsF env label source true (fuel + 1) st stats pid g).1.fetchLog =
        st.fetchLog) := by
  have hng : ¬ g > env.maxGenDown := Nat.not_lt.mpr hg
  have heq : propagateToAllSonsF env label source true (fuel + 1) st stats pid g =
      if dbGetSons st.db pid = [] then (st, stats)
      else
        (dbGetSons st.db pid).foldl (fun (acc : St × Stats) son =>
          let sid := rowKeyId son
          let asg := assignHaplogroup acc.1 acc.2 sid label ("propagated_" ++ source)
          propagateToAllSonsF env label source true fuel asg.2.1 asg.2.2 sid (g + 1))
          (st, { stats with skipped_explored := stats.skipped_explored + 1 }) := by
    simp only [propagateToAllSonsF, if_neg hng]
    rw [if_pos (⟨trivial, hex⟩ : True ∧ isExplored st.db pid label)]
  refine ⟨?_, ?_, ?_, ?_⟩
  · intro h
    rw [heq, if_pos h]
  · intro h
    rw [heq, if_neg h]
    have hfold : Evolves
        (st, { stats with skipped_explored := stats.skipped_explored + 1 })
        ((dbGetSons st.db pid).foldl (fun (acc : St × Stats) son =>
          let sid := rowKeyId son
          let asg := assignHaplogroup acc.1 acc.2 sid label ("propagated_" ++ source)
          propagateToAllSonsF env label source true fuel asg.2.1 asg.2.2 sid (g + 1))
          (st, { stats with skipped_explored := stats.skipped_explored + 1 })) := by
      refine foldl_rel Evolves evolves_refl evolves_trans _ ?_ _ _
      intro b son
      exact evolves_trans _ _ _ (assign_evolves b.1 b.2 _ label _)
        (propagate_evolves env label source true fuel _ _ _ _)
    exact hfold.2.1
  · intro son hson
    have h : dbGetSons st.db pid ≠ [] := by
      intro hc
      rw [hc] at hson
      exact List.not_mem_nil son hson
    rw [heq, if_neg h]
    exact fold_assign_isSome env label source true fuel g (dbGetSons st.db pid) _ son hson
  · intro hgmax
    rw [heq]
    split_ifs with hs
    · rfl
    · have hfold := foldl_rel (fun (a b : St × Stats) => b.1.fetchLog = a.1.fetchLog)
        (fun _ => rfl) (fun a b c hab hbc => hbc.trans hab)
        (fun (acc : St × Stats) son =>
          let sid := rowKeyId son
          let asg := assignHaplogroup acc.1 acc.2 sid label ("propagated_" ++ source)
          propagateToAllSonsF env label source true fuel asg.2.1 asg.2.2 sid (g + 1)) ?_
        (dbGetSons st.db pid)
        (st, { stats with skipped_explored := stats.skipped_explored + 1 })
      · exact hfold
      · intro b son
        dsimp only
        rw [propagateToAllSonsF_gt_cap env label source true fuel _ _ _ (g + 1)
          (by rw [hgmax]; exact Nat.lt_succ_self _)]
        exact (assignHaplogroup_frame b.1 b.2 _ label _).1

/-- Counterexample world for the skip counter: profile p is checkpointed for
R-X, resolvable by the profile endpoint, has no cached father and no cached
sons, and the family endpoint is down. -/
def c2Env : Env :=
  ⟨fun _ => .error "down",
   fun i => if i = "p" then .ok ⟨some "p", none, some "male", some "P", none, none, none⟩
     else .error "e",
   10, 10⟩

def c2St : St := ⟨⟨[], [], [], [], [("p", "R-X")]⟩, []⟩

/-- C2 as stated is false on the code: in this resume run the single visited
profile p is an exploration checkpoint, yet the skipped-explored counter is
never incremented, because the store holds no cached sons for p and the
increment sits behind the non-empty-sons guard. -/
theorem resume_branch_skip_counterexample :
    isExplored c2St.db "p" "R-X" ∧
    (propagateFullTree c2Env c2St "p" "R-X" "FTDNA" true).1.skipped_explored = 0 := by
  constructor
  · decide
  · decide

def c2wSt : St := ⟨⟨[dbRow "p", dbRow "s"], [("p", "s")], [], [], [("p", "R-X")]⟩, []⟩

theorem resume_branch_skips_fetch_witness :
    ((10 : Nat) ≤ c2Env.maxGenDown) ∧ isExplored c2wSt.db "p" "R-X" ∧
    ((dbGetSons c2wSt.db "p" = [] →
        propagateToAllSonsF c2Env "R-X" "FTDNA" true (0 + 1) c2wSt stats0 "p" 10 =
          (c2wSt, stats0)) ∧
     (dbGetSons c2wSt.db "p" ≠ [] →
        stats0.skipped_explored + 1 ≤
          (propagateToAllSonsF c2Env "R-X" "FTDNA" true (0 + 1) c2wSt stats0 "p" 10).2.skipped_explored) ∧
     (∀ son ∈ dbGetSons c2wSt.db "p",
        (dbGetHaplogroup
          (propagateToAllSonsF c2Env "R-X" "FTDNA" true (0 + 1) c2wSt stats0 "p" 10).1.db
          (rowKeyId son)).isSome = true) ∧
     ((10 : Nat) = c2Env.maxGenDown →
        (propagateToAllSonsF c2Env "R-X" "FTDNA" true (0 + 1) c2wSt stats0 "p" 10).1.fetchLog =
          c2wSt.fetchLog)) :=
  ⟨by decide, by decide,
    resume_branch_skips_fetch c2Env c2wSt stats0 "R-X" "FTDNA" "p" 0 10
      (by decide) (by decide)⟩
